import Mathlib

/-!
# Verification of the affiliate-api lead relay and token codec

Shallow embedding of the repository's four source files:

* `src/unnamed/part_000` — `app/api/agora/route.ts` variant with an unconditional
  early return followed by the (unreachable) validate-and-relay logic;
* `src/unnamed/part_001` — `app/api/agora/route.ts` variant exposing `encrypt`
  (compact JWE) and a `POST` that answers a fixed encrypted redirect URL with
  permissive CORS headers;
* `src/src/app/redirect/route.ts` — `GET /redirect` handler: base64-unwrap the
  `token` query parameter, compact-JWE-decrypt it, redirect to the plaintext;
* `src/unnamed/part_002` — an alternate redirect route (not needed below).

JSON values are embedded as the inductive `JValue` (numbers restricted to
integers: no claim involves fractional JSON numbers).  External libraries
(jose, zod internals, Node `Buffer`, `JSON.parse`) are modelled where the
repository calls them; each such model carries a doc comment explaining the
modelling choice.
-/

/-- A JSON value as manipulated by the handlers.  Numbers are modelled as
integers (`Int`); no behaviour claimed about fractional numbers. -/
inductive JValue where
  | jnull : JValue
  | jbool : Bool → JValue
  | jnum : Int → JValue
  | jstr : String → JValue
  | jarr : List JValue → JValue
  | jobj : List (String × JValue) → JValue

open JValue

/-- First-match lookup in a flat JS-object representation. -/
def lookupP (pairs : List (String × JValue)) (k : String) : Option JValue :=
  match pairs with
  | [] => none
  | (k2, v) :: rest => if k2 = k then some v else lookupP rest k

/-- Property access `v?.k` : `none` when `v` is not an object or lacks `k`. -/
def jlookup (v : JValue) (k : String) : Option JValue :=
  match v with
  | .jobj pairs => lookupP pairs k
  | _ => none

/-! ## Base64 (Node `Buffer` model)

`Buffer.from(s).toString("base64")` and `Buffer.from(t, "base64")` from
`part_001` line 131 and `redirect/route.ts` line 13.  Node's base64 decoder is
lenient: characters outside the alphabet (including `=` padding) are skipped,
and a trailing group of 2 or 3 sextets yields 1 or 2 bytes. -/

def b64Alphabet : List Char :=
  "ABCDEFGHIJKLMNOPQRSTUVWXYZabcdefghijklmnopqrstuvwxyz0123456789+/".data

def b64Char (n : Nat) : Char := b64Alphabet.getD n 'A'

def b64Val (c : Char) : Option Nat := b64Alphabet.indexOf? c

/-- Standard base64 encoding of a byte list (each `< 256`), with padding. -/
def b64Encode : List Nat → List Char
  | [] => []
  | [b1] => [b64Char (b1 / 4), b64Char (b1 % 4 * 16), '=', '=']
  | [b1, b2] => [b64Char (b1 / 4), b64Char (b1 % 4 * 16 + b2 / 16), b64Char (b2 % 16 * 4), '=']
  | b1 :: b2 :: b3 :: rest =>
      b64Char (b1 / 4) :: b64Char (b1 % 4 * 16 + b2 / 16) ::
      b64Char (b2 % 16 * 4 + b3 / 64) :: b64Char (b3 % 64) :: b64Encode rest

/-- Recompose bytes from a list of sextet values, four at a time; a trailing
pair or triple yields the partial byte group, a lone sextet is dropped
(mirroring Node's lenient decoder). -/
def b64DecodeCore : List Nat → List Nat
  | s1 :: s2 :: s3 :: s4 :: rest =>
      (s1 * 4 + s2 / 16) :: (s2 % 16 * 16 + s3 / 4) :: (s3 % 4 * 64 + s4) :: b64DecodeCore rest
  | [s1, s2, s3] => [s1 * 4 + s2 / 16, s2 % 16 * 16 + s3 / 4]
  | [s1, s2] => [s1 * 4 + s2 / 16]
  | _ => []

/-- Lenient base64 decoding of a character list to bytes. -/
def b64Decode (l : List Char) : List Nat := b64DecodeCore (l.filterMap b64Val)

theorem b64Val_b64Char : ∀ n ∈ List.range 64, b64Val (b64Char n) = some n := by decide

theorem b64Val_eq (n : Nat) (h : n < 64) : b64Val (b64Char n) = some n :=
  b64Val_b64Char n (List.mem_range.mpr h)

theorem b64Val_pad : b64Val '=' = none := by decide

theorem b64_roundtrip (bs : List Nat) (h : ∀ b ∈ bs, b < 256) :
    b64Decode (b64Encode bs) = bs := by
  unfold b64Decode
  induction bs using b64Encode.induct with
  | case1 => simp [b64Encode, b64DecodeCore]
  | case2 b1 =>
      have hb1 : b1 < 256 := h b1 (by simp)
      simp only [b64Encode, List.filterMap]
      rw [b64Val_eq _ (by omega), b64Val_eq _ (by omega)]
      simp [b64Val_pad, b64DecodeCore]
      omega
  | case3 b1 b2 =>
      have hb1 : b1 < 256 := h b1 (by simp)
      have hb2 : b2 < 256 := h b2 (by simp)
      simp only [b64Encode, List.filterMap]
      rw [b64Val_eq _ (by omega), b64Val_eq _ (by omega), b64Val_eq _ (by omega)]
      simp [b64Val_pad, b64DecodeCore]
      constructor <;> omega
  | case4 b1 b2 b3 rest ih =>
      have hb1 : b1 < 256 := h b1 (by simp)
      have hb2 : b2 < 256 := h b2 (by simp)
      have hb3 : b3 < 256 := h b3 (by simp)
      have hrest : ∀ b ∈ rest, b < 256 := fun b hb => h b (by simp [hb])
      simp only [b64Encode, List.filterMap]
      rw [b64Val_eq _ (by omega), b64Val_eq _ (by omega), b64Val_eq _ (by omega),
        b64Val_eq _ (by omega)]
      simp only [b64DecodeCore]
      rw [ih hrest]
      simp only [List.cons.injEq]
      refine ⟨by omega, by omega, by omega, trivial⟩

/-! ## UTF-8 byte bridge (Node `Buffer` / `TextEncoder` model)

Modelled from the spec: the token is "an opaque, transport-safe encoding" and
the compact JWE serialization is plain ASCII text, so the UTF-8 encode/decode
performed by `TextEncoder` / `Buffer.toString("utf-8")` is modelled faithfully
on ASCII (code points below 128, where UTF-8 is the identity on bytes);
non-ASCII bytes decode to the replacement character, a simplification of the
external runtime that no handler below exercises. -/

def asciiBytes (s : String) : List Nat := s.data.map Char.toNat

def bufToStringUtf8 (bytes : List Nat) : String :=
  ⟨bytes.map (fun b => if b < 128 then Char.ofNat b else '�')⟩

theorem bufToStringUtf8_asciiBytes (s : String) (h : ∀ c ∈ s.data, c.toNat < 128) :
    bufToStringUtf8 (asciiBytes s) = s := by
  unfold bufToStringUtf8 asciiBytes
  rw [List.map_map]
  have : s.data.map (((fun b => if b < 128 then Char.ofNat b else '�')) ∘ Char.toNat)
      = s.data.map id := by
    apply List.map_congr_left
    intro c hc
    simp only [Function.comp_apply, h c hc, if_pos, id]
    exact Char.ofNat_toNat c
  rw [this, List.map_id]

/-! ## Compact JWE codec (jose model)

Modelled from the spec: `CompactEncrypt` / `compactDecrypt` from the external
`jose` library produce and consume "a compact authenticated-encryption token
(self-describing header, integrity-checked)" under a shared password; the
round-trip recovers the plaintext exactly and decryption fails (throws, here
`none`) on a malformed token or a non-matching key.  The concrete wire layout
below (a fixed header, then the password and plaintext in a self-delimiting
per-character encoding over `{a, -}`) is a model of that opaque format: it is
ASCII, deterministic, key-checked, and exactly invertible, which is all the
repository code observes of the library. -/

def encChar (c : Char) : List Char := List.replicate c.toNat 'a' ++ ['-']

def encStr (l : List Char) : List Char := l.flatMap encChar

/-- Decode the self-delimiting encoding, fuelled so that it stays a structural
recursion (and hence kernel-evaluable); `none` on any malformed input. -/
def decStrF : Nat → List Char → Option (List Char)
  | 0, l => if l = [] then some [] else none
  | fuel + 1, l =>
      if l = [] then some []
      else
        match l.dropWhile (fun x => x = 'a') with
        | '-' :: rest =>
            (decStrF fuel rest).map
              (fun r => Char.ofNat (l.takeWhile (fun x => x = 'a')).length :: r)
        | _ => none

def decStr (l : List Char) : Option (List Char) := decStrF l.length l

/-- part_001 line 119: `new CompactEncrypt(...).setProtectedHeader(...).encrypt(pw)`. -/
def compactEncrypt (key pt : String) : String :=
  ⟨'J' :: 'W' :: 'E' :: '.' :: (encStr key.data ++ '.' :: encStr pt.data)⟩

/-- Authenticated-decryption core: decode the two sections, check the key. -/
def jweParts (key : String) (ks ps : List Char) : Option String :=
  match decStr ks, decStr ps with
  | some kd, some pd => if kd = key.data then some ⟨pd⟩ else none
  | _, _ => none

/-- Split the part of the token after the header at the section separator. -/
def jweBody (key : String) (rest : List Char) : Option String :=
  match rest.dropWhile (fun c => ¬ c = '.') with
  | '.' :: ps => jweParts key (rest.takeWhile (fun c => ¬ c = '.')) ps
  | _ => none

/-- redirect/route.ts line 23: `compactDecrypt(jwe, pw)`; `none` models a throw. -/
def compactDecrypt (key tok : String) : Option String :=
  match tok.data with
  | 'J' :: 'W' :: 'E' :: '.' :: rest => jweBody key rest
  | _ => none

theorem mem_encStr (l : List Char) (c : Char) (h : c ∈ encStr l) : c = 'a' ∨ c = '-' := by
  unfold encStr at h
  obtain ⟨x, _, hx⟩ := List.mem_flatMap.mp h
  unfold encChar at hx
  rcases List.mem_append.mp hx with h1 | h1
  · exact Or.inl (List.eq_of_mem_replicate h1)
  · simp at h1
    exact Or.inr h1

theorem takeWhile_replicate_append (p : Char → Bool) (a x : Char) (t : List Char) (n : Nat)
    (ha : p a) (hx : ¬ p x) :
    (List.replicate n a ++ x :: t).takeWhile p = List.replicate n a ∧
    (List.replicate n a ++ x :: t).dropWhile p = x :: t := by
  induction n with
  | zero => simp [List.takeWhile_cons, List.dropWhile_cons, hx]
  | succ n ih => simp [List.replicate_succ, List.takeWhile_cons, List.dropWhile_cons, ha, ih]

theorem encStr_cons (c : Char) (t : List Char) :
    encStr (c :: t) = List.replicate c.toNat 'a' ++ '-' :: encStr t := by
  simp [encStr, encChar]

theorem length_le_length_encStr (l : List Char) : l.length ≤ (encStr l).length := by
  induction l with
  | nil => simp [encStr]
  | cons c t ih =>
      rw [encStr_cons]
      simp only [List.length_append, List.length_replicate, List.length_cons]
      omega

theorem decStrF_encStr (s : List Char) :
    ∀ fuel, s.length ≤ fuel → decStrF fuel (encStr s) = some s := by
  induction s with
  | nil =>
      intro fuel _
      have h0 : encStr [] = [] := rfl
      cases fuel <;> simp [decStrF, h0]
  | cons c t ih =>
      intro fuel hfuel
      cases fuel with
      | zero => simp at hfuel
      | succ f =>
          have htk := takeWhile_replicate_append (fun x => x = 'a') 'a' '-' (encStr t) c.toNat
            (by simp) (by simp)
          have hne : encStr (c :: t) ≠ [] := by
            rw [encStr_cons]
            simp
          rw [decStrF, if_neg hne, encStr_cons, htk.2, htk.1]
          have hf : t.length ≤ f := by
            simp only [List.length_cons] at hfuel
            omega
          show (decStrF f (encStr t)).map
              (fun r => Char.ofNat (List.replicate c.toNat 'a').length :: r) = some (c :: t)
          rw [ih f hf]
          simp [Char.ofNat_toNat]

theorem decStr_encStr (l : List Char) : decStr (encStr l) = some l :=
  decStrF_encStr l (encStr l).length (length_le_length_encStr l)

theorem compactEncrypt_ascii (key pt : String) :
    ∀ c ∈ (compactEncrypt key pt).data, c.toNat < 128 := by
  intro c hc
  unfold compactEncrypt at hc
  simp only [List.mem_cons] at hc
  rcases hc with h | h | h | h | h
  · subst h; decide
  · subst h; decide
  · subst h; decide
  · subst h; decide
  · rcases List.mem_append.mp h with h1 | h1
    · rcases mem_encStr _ _ h1 with h2 | h2 <;> (subst h2; decide)
    · rcases List.mem_cons.mp h1 with h2 | h2
      · subst h2; decide
      · rcases mem_encStr _ _ h2 with h3 | h3 <;> (subst h3; decide)

theorem compactDecrypt_compactEncrypt (key pt : String) :
    compactDecrypt key (compactEncrypt key pt) = some pt := by
  have hkey : ∀ c ∈ encStr key.data, ¬ (c = '.') := by
    intro c hc
    rcases mem_encStr _ _ hc with h | h <;> (subst h; decide)
  have htk : (encStr key.data ++ '.' :: encStr pt.data).takeWhile (fun c => ¬ c = '.')
      = encStr key.data ∧
      (encStr key.data ++ '.' :: encStr pt.data).dropWhile (fun c => ¬ c = '.')
      = '.' :: encStr pt.data := by
    constructor
    · rw [List.takeWhile_append_of_pos]
      · simp [List.takeWhile_cons]
      · intro a ha; simpa using hkey a ha
    · rw [List.dropWhile_append_of_pos]
      · simp [List.dropWhile_cons]
      · intro a ha; simpa using hkey a ha
  show jweBody key (encStr key.data ++ '.' :: encStr pt.data) = some pt
  unfold jweBody
  rw [htk.2, htk.1]
  show jweParts key (encStr key.data) (encStr pt.data) = some pt
  unfold jweParts
  rw [decStr_encStr, decStr_encStr]
  simp

/-! ## part_001: `encrypt`, CORS headers, `POST`;  redirect route: `GET`, `decrypt` -/

/-- part_001 lines 117-123: `encrypt` — UTF-8 encode plaintext and process
key, compact-JWE encrypt, return the compact serialization. -/
def encrypt (key plaintext : String) : String := compactEncrypt key plaintext

/-- part_001 line 131: `Buffer.from(encrypted).toString("base64")`. -/
def base64OfString (s : String) : String := ⟨b64Encode (asciiBytes s)⟩

/-- The token part_001's `POST` embeds in its redirect URL (lines 130-131). -/
def tokenOf (key u : String) : String := base64OfString (encrypt key u)

/-- redirect/route.ts lines 21-25: `decrypt` — compact-JWE decrypt under the
process key; a throw from `compactDecrypt` is modelled as `none`. -/
def decrypt (key jwe : String) : Option String := compactDecrypt key jwe

/-- Observable outcome of the redirect route: a JSON response, an HTTP
redirect, or an uncaught exception propagated to the framework (which the
hosting runtime turns into an error response; the handler itself has no
try/catch). -/
inductive HandlerResult where
  | json : Nat → JValue → HandlerResult
  | redirect : String → HandlerResult
  | thrown : HandlerResult

/-- redirect/route.ts lines 4-19, parameterized by the decryption routine so
that "no decryption attempted" is expressible as independence from `dec`.
`searchParams.get("token")` yields `none` when absent; `if (!token)` is also
taken for the empty string, hence the extra emptiness test.  Otherwise the
token is base64-unwrapped (`Buffer.from(token, "base64").toString("utf-8")`),
decrypted, and the plaintext is used as the redirect target. -/
def GETredirectWith (dec : String → Option String) (token : Option String) : HandlerResult :=
  match token with
  | none => .json 400 (.jobj [("error", .jstr "Missing token")])
  | some t =>
      if t = "" then .json 400 (.jobj [("error", .jstr "Missing token")])
      else
        match dec (bufToStringUtf8 (b64Decode t.data)) with
        | some url => .redirect url
        | none => .thrown

/-- redirect/route.ts `GET` with its actual `decrypt`. -/
def GETredirect (key : String) (token : Option String) : HandlerResult :=
  GETredirectWith (decrypt key) token

theorem b64Encode_cons_ne_nil (b : Nat) (l : List Nat) : b64Encode (b :: l) ≠ [] := by
  match l with
  | [] => simp [b64Encode]
  | [b2] => simp [b64Encode]
  | b2 :: b3 :: rest => simp [b64Encode]

theorem token_unwrap (key u : String) :
    bufToStringUtf8 (b64Decode (tokenOf key u).data) = encrypt key u := by
  have hascii : ∀ c ∈ (encrypt key u).data, c.toNat < 128 := compactEncrypt_ascii key u
  have h256 : ∀ b ∈ asciiBytes (encrypt key u), b < 256 := by
    intro b hb
    obtain ⟨c, hc, rfl⟩ := List.mem_map.mp hb
    have := hascii c hc
    omega
  show bufToStringUtf8 (b64Decode (b64Encode (asciiBytes (encrypt key u)))) = encrypt key u
  rw [b64_roundtrip _ h256]
  exact bufToStringUtf8_asciiBytes _ hascii

/-- C1.  Round-trip law of the token codec: for every destination URL string
`u` and every process key, decrypting the token produced by part_001's
`encrypt` (compact JWE, base64-wrapped) along the redirect handler's decode
path (base64-unwrap, then compact JWE decrypt under the same key) yields
exactly `u`; consequently the redirect handler redirects to exactly `u`. -/
theorem token_encrypt_decrypt_roundtrip (key u : String) :
    decrypt key (bufToStringUtf8 (b64Decode (tokenOf key u).data)) = some u ∧
    GETredirect key (some (tokenOf key u)) = .redirect u := by
  have hdec : decrypt key (bufToStringUtf8 (b64Decode (tokenOf key u).data)) = some u := by
    rw [token_unwrap]
    exact compactDecrypt_compactEncrypt key u
  refine ⟨hdec, ?_⟩
  have hne : ¬ (tokenOf key u = "") := by
    intro h
    have hd : (tokenOf key u).data = [] := by rw [h]
    have hshape : (tokenOf key u).data
        = b64Encode ('J'.toNat ::
            List.map Char.toNat ('W' :: 'E' :: '.' :: (encStr key.data ++ '.' :: encStr u.data))) := rfl
    rw [hshape] at hd
    exact b64Encode_cons_ne_nil _ _ hd
  show (if tokenOf key u = "" then HandlerResult.json 400 (.jobj [("error", .jstr "Missing token")])
        else match decrypt key (bufToStringUtf8 (b64Decode (tokenOf key u).data)) with
             | some url => HandlerResult.redirect url
             | none => HandlerResult.thrown) = .redirect u
  rw [if_neg hne, hdec]

/-- C5.  A `GET /redirect` request with no `token` query parameter yields
exactly `400 {"error":"Missing token"}`, regardless of the decryption
routine — in particular no decryption is attempted. -/
theorem missing_token_returns_400 (dec : String → Option String) :
    GETredirectWith dec none = .json 400 (.jobj [("error", .jstr "Missing token")]) := rfl

/-- C6.  Fail-closed decryption: whenever the decode-decrypt chain fails on a
(nonempty) token, the redirect handler's uncaught exception propagates to the
framework (surfacing an error response) and the handler never issues a
redirect to any string. -/
theorem decrypt_failure_fails_closed (key t : String) (hne : ¬ t = "")
    (hfail : decrypt key (bufToStringUtf8 (b64Decode t.data)) = none) :
    GETredirect key (some t) = .thrown ∧ ∀ u, GETredirect key (some t) ≠ .redirect u := by
  have hres : GETredirect key (some t) = .thrown := by
    show (if t = "" then HandlerResult.json 400 (.jobj [("error", .jstr "Missing token")])
          else match decrypt key (bufToStringUtf8 (b64Decode t.data)) with
               | some url => HandlerResult.redirect url
               | none => HandlerResult.thrown) = .thrown
    rw [if_neg hne, hfail]
  refine ⟨hres, fun u hu => ?_⟩
  rw [hres] at hu
  exact HandlerResult.noConfusion hu

/-- Witness for C6 at a concrete malformed token: `"!!!"` contains no base64
alphabet character, decodes to the empty byte list, and the resulting empty
string is not a compact JWE, so decryption fails and the handler throws. -/
theorem decrypt_failure_fails_closed_witness :
    GETredirect "k" (some "!!!") = .thrown :=
  (decrypt_failure_fails_closed "k" "!!!" (by decide) rfl).1

/-! ## part_001 `POST` (lines 125-142) and CORS headers (lines 102-110) -/

/-- part_001 lines 102-110. -/
def CORS_HEADERS : List (String × String) :=
  [("Access-Control-Allow-Origin", "*"),
   ("Access-Control-Allow-Methods", "GET,POST,PUT,PATCH,DELETE,OPTIONS"),
   ("Access-Control-Allow-Headers", "Content-Type, Authorization, X-Requested-With"),
   ("Access-Control-Max-Age", "86400")]

/-- A JSON response together with its response headers. -/
structure RespH where
  status : Nat
  body : JValue
  headers : List (String × String)

/-- part_001 lines 125-142: after the artificial delay (real time, not
modelled), encrypt the fixed string, base64-wrap it, answer 200 `accepted`
with the fixed redirect URL, and set all CORS headers.  The request body is
never read: the handler is a constant function of it. -/
def POSTpart001 (key : String) (_reqBody : Option JValue) : RespH :=
  ⟨200,
   .jobj [("status", .jstr "accepted"),
          ("redirectUrl",
           .jstr ("https://prod.americacashfast.com/redirect?token="
                  ++ base64OfString (encrypt key "https://google.com")))],
   CORS_HEADERS⟩

/-- C10.  In variant part_001 the `POST` handler never reads or validates the
request body (its result is the same for any two bodies) and always returns
200 `accepted` whose `redirectUrl` is the fixed redirect endpoint followed by
the base64 wrapping of the compact-JWE encryption of `"https://google.com"`,
with the permissive CORS headers set on the response. -/
theorem part001_post_constant_encrypted_redirect (key : String) (b b2 : Option JValue) :
    POSTpart001 key b = POSTpart001 key b2 ∧
    POSTpart001 key b =
      ⟨200,
       .jobj [("status", .jstr "accepted"),
              ("redirectUrl",
               .jstr ("https://prod.americacashfast.com/redirect?token="
                      ++ base64OfString (encrypt key "https://google.com")))],
       CORS_HEADERS⟩ :=
  ⟨rfl, rfl⟩

/-! ## Zod schema model (part_000 / part_001 lines 11-100)

The `AgoraLeadSchema` is a `z.object` of per-field validators followed by a
`superRefine` cross-field check.  Zod's parse semantics, as exercised here
(`.parse` on the synchronous path):

* a missing required field, a type mismatch, an invalid enum value or an
  exhausted union adds an issue and *aborts* that field;
* a failed check on a correctly-typed value (`length`, `min`, `regex`,
  `email`, numeric bounds) adds an issue and marks the field *dirty*;
* issues of all fields are collected; if any field aborted the whole parse is
  aborted and the `superRefine` refinement is *not* executed; otherwise the
  refinement runs (also on a dirty parse) and may add its own issue;
* the parse succeeds iff no issue was recorded, and then returns the object
  stripped to the schema's keys.

`z.string().email()` and `z.string().regex(/^\d{4}-\d{2}-\d{2}$/)` are zod
internals, modelled from the spec: "email must be a syntactically valid
address" (local part, `@`, domain containing a dot) and "must match
YYYY-MM-DD" (ten characters, digits with dashes at positions 4 and 7).
Issue `code`/`message` strings other than the `superRefine` one are
abbreviations of zod's texts; their `path` is the field name, as in zod. -/

inductive ZStatus where
  | valid : ZStatus
  | dirty : ZStatus
  | aborted : ZStatus
  deriving DecidableEq

def ZStatus.isAb : ZStatus → Bool
  | .aborted => true
  | _ => false

structure ZIssue where
  code : String
  path : List String
  message : String
  deriving DecidableEq

inductive FieldSpec where
  | fStr : FieldSpec
  | fStrLen : Nat → FieldSpec
  | fStrMin : Nat → FieldSpec
  | fEmail : FieldSpec
  | fDate : FieldSpec
  | fInt : Option Int → Option Int → FieldSpec
  | fEnum : List String → FieldSpec
  | fStrOrNum : FieldSpec
  deriving DecidableEq

structure SchemaField where
  name : String
  spec : FieldSpec
  opt : Bool
  nullable : Bool
  deriving DecidableEq

/-- Modelled from the spec: zod's email format check — nonempty local part,
exactly one `@`, nonempty domain containing a dot. -/
def emailOk (s : String) : Bool :=
  match s.data.dropWhile (fun c => !(c = '@')) with
  | '@' :: domain =>
      !(s.data.takeWhile (fun c => !(c = '@'))).isEmpty
        && !domain.isEmpty && domain.contains '.' && !(domain.contains '@')
  | _ => false

/-- Modelled from the spec: the date regex `^\d{4}-\d{2}-\d{2}$`. -/
def dateOk (s : String) : Bool :=
  match s.data with
  | [a, b, c, d, '-', e, f, '-', g, h] =>
      a.isDigit && b.isDigit && c.isDigit && d.isDigit &&
      e.isDigit && f.isDigit && g.isDigit && h.isDigit
  | _ => false

/-- Validate one present, non-null value against a field validator, returning
the zod status and the issues as (code, message) pairs. -/
def checkVal : FieldSpec → JValue → ZStatus × List (String × String)
  | .fStr, .jstr _ => (.valid, [])
  | .fStr, _ => (.aborted, [("invalid_type", "Expected string")])
  | .fStrLen n, .jstr s =>
      if s.length = n then (.valid, [])
      else (.dirty, [("invalid_string_length", "String must contain exactly N character(s)")])
  | .fStrLen _, _ => (.aborted, [("invalid_type", "Expected string")])
  | .fStrMin n, .jstr s =>
      if n ≤ s.length then (.valid, [])
      else (.dirty, [("too_small", "String must contain at least N character(s)")])
  | .fStrMin _, _ => (.aborted, [("invalid_type", "Expected string")])
  | .fEmail, .jstr s =>
      if emailOk s then (.valid, []) else (.dirty, [("invalid_string", "Invalid email")])
  | .fEmail, _ => (.aborted, [("invalid_type", "Expected string")])
  | .fDate, .jstr s =>
      if dateOk s then (.valid, []) else (.dirty, [("invalid_string", "Invalid")])
  | .fDate, _ => (.aborted, [("invalid_type", "Expected string")])
  | .fInt lo hi, .jnum k =>
      if lo.any (fun m => k < m) then (.dirty, [("too_small", "Number too small")])
      else if hi.any (fun m => m < k) then (.dirty, [("too_big", "Number too big")])
      else (.valid, [])
  | .fInt _ _, _ => (.aborted, [("invalid_type", "Expected number")])
  | .fEnum vals, .jstr s =>
      if vals.contains s then (.valid, [])
      else (.aborted, [("invalid_enum_value", "Invalid enum value")])
  | .fEnum _, _ => (.aborted, [("invalid_type", "Expected string")])
  | .fStrOrNum, .jstr _ => (.valid, [])
  | .fStrOrNum, .jnum _ => (.valid, [])
  | .fStrOrNum, _ => (.aborted, [("invalid_union", "Invalid input")])

/-- Outcome of one schema field on the submitted object. -/
def fieldResult (pairs : List (String × JValue)) (fld : SchemaField) : ZStatus × List ZIssue :=
  match lookupP pairs fld.name with
  | none =>
      if fld.opt then (.valid, [])
      else (.aborted, [⟨"invalid_type", [fld.name], "Required"⟩])
  | some .jnull =>
      if fld.nullable then (.valid, [])
      else (.aborted, [⟨"invalid_type", [fld.name], "Expected value, received null"⟩])
  | some v =>
      match checkVal fld.spec v with
      | (st, is) => (st, is.map (fun p => ⟨p.1, [fld.name], p.2⟩))

/-- The `AgoraLeadSchema` object shape, in source order
(part_000 / part_001 lines 11-91). -/
def schemaFields : List SchemaField :=
  [⟨"campaignID", .fInt none none, false, false⟩,
   ⟨"ipAddress", .fStr, false, false⟩,
   ⟨"sourceURL", .fStr, false, false⟩,
   ⟨"firstName", .fStr, false, false⟩,
   ⟨"lastName", .fStr, false, false⟩,
   ⟨"streetAddress", .fStr, false, false⟩,
   ⟨"city", .fStr, false, false⟩,
   ⟨"state", .fStrLen 2, false, false⟩,
   ⟨"zipCode", .fStrMin 5, false, false⟩,
   ⟨"homePhone", .fStrMin 10, false, false⟩,
   ⟨"workPhone", .fStrMin 10, false, false⟩,
   ⟨"mobilePhone", .fStrMin 10, false, false⟩,
   ⟨"email", .fEmail, false, false⟩,
   ⟨"dateOfBirth", .fDate, false, false⟩,
   ⟨"ssn", .fStrLen 9, false, false⟩,
   ⟨"ownRent", .fEnum ["own", "rent", "other"], false, false⟩,
   ⟨"yearsAtResidence", .fInt (some 0) (some 127), false, false⟩,
   ⟨"monthsAtResidence", .fInt (some 0) (some 11), false, false⟩,
   ⟨"incomeSource",
    .fEnum ["employment", "socialSecurity", "disability", "retirement", "unemployment",
            "other"], false, false⟩,
   ⟨"employer", .fStr, false, false⟩,
   ⟨"yearsAtEmployer", .fInt (some 0) (some 127), false, false⟩,
   ⟨"monthsAtEmployer", .fInt (some 0) (some 11), false, false⟩,
   ⟨"monthlyIncome", .fStrOrNum, false, false⟩,
   ⟨"loanAmount", .fStrOrNum, false, false⟩,
   ⟨"payMethod", .fEnum ["checking", "savings", "paper", "other"], false, false⟩,
   ⟨"payPeriod", .fEnum ["weekly", "biWeekly", "semiMonthly", "monthly"], false, false⟩,
   ⟨"firstPayDate", .fDate, false, false⟩,
   ⟨"secondPayDate", .fDate, false, false⟩,
   ⟨"bankName", .fStr, false, false⟩,
   ⟨"bankAccountType", .fEnum ["checking", "savings"], false, false⟩,
   ⟨"bankRoutingNumber", .fStr, false, false⟩,
   ⟨"bankAccountNumber", .fStr, false, false⟩,
   ⟨"activeMilitary", .fStrOrNum, false, false⟩,
   ⟨"minPrice", .fStrOrNum, false, false⟩,
   ⟨"gender", .fEnum ["m", "f"], true, false⟩,
   ⟨"streetAddress2", .fStr, true, true⟩,
   ⟨"workPhoneExt", .fStr, true, false⟩,
   ⟨"citizen", .fStrOrNum, true, false⟩,
   ⟨"licenseNumber", .fStr, true, false⟩,
   ⟨"licenseState", .fStrLen 2, true, false⟩,
   ⟨"title", .fStr, true, false⟩,
   ⟨"employerAddress", .fStr, true, false⟩,
   ⟨"employerCity", .fStr, true, false⟩,
   ⟨"employerState", .fStrLen 2, true, false⟩,
   ⟨"employerZip", .fStrOrNum, true, false⟩,
   ⟨"bankPhone", .fStr, true, false⟩,
   ⟨"referencePrimaryName", .fStr, true, false⟩,
   ⟨"referencePrimaryPhone", .fStr, true, false⟩,
   ⟨"referencePrimaryRelation", .fStr, true, false⟩,
   ⟨"referenceSecondaryName", .fStr, true, false⟩,
   ⟨"referenceSecondaryPhone", .fStr, true, false⟩,
   ⟨"referenceSecondaryRelation", .fStr, true, false⟩,
   ⟨"optin", .fStrOrNum, true, false⟩,
   ⟨"bankruptcy", .fStrOrNum, true, false⟩,
   ⟨"timeToCall", .fStr, true, false⟩,
   ⟨"campaignRouting", .fStrOrNum, true, false⟩,
   ⟨"subID", .fStr, true, false⟩,
   ⟨"subID2", .fStr, true, false⟩,
   ⟨"subID3", .fStrOrNum, true, false⟩,
   ⟨"bankMonths", .fStrOrNum, true, false⟩,
   ⟨"subID4", .fStr, true, false⟩,
   ⟨"subID5", .fStr, true, false⟩,
   ⟨"subID6", .fStr, true, false⟩,
   ⟨"subID7", .fStr, true, false⟩,
   ⟨"subID8", .fStr, true, false⟩,
   ⟨"subID9", .fStr, true, false⟩,
   ⟨"subID10", .fStr, true, false⟩,
   ⟨"subIDBig", .fStr, true, false⟩]

/-- All issues contributed by the object shape, in schema order. -/
def baseIssues (pairs : List (String × JValue)) : List ZIssue :=
  schemaFields.flatMap (fun fld => (fieldResult pairs fld).2)

/-- Whether some field of the object shape aborted. -/
def baseAborts (pairs : List (String × JValue)) : Bool :=
  schemaFields.any (fun fld => (fieldResult pairs fld).1.isAb)

/-- part_000 lines 92-100: the `superRefine` issue. -/
def customIssue : ZIssue := ⟨"custom", ["bankMonths"], "bankMonths (subID3) is required"⟩

/-- Issues of the cross-field refinement: executed only when the base parse
did not abort, it fires when both `subID3` and `bankMonths` are absent. -/
def refineIssues (pairs : List (String × JValue)) : List ZIssue :=
  if !baseAborts pairs
      && (lookupP pairs "subID3").isNone && (lookupP pairs "bankMonths").isNone
  then [customIssue] else []

def allIssues (pairs : List (String × JValue)) : List ZIssue :=
  baseIssues pairs ++ refineIssues pairs

/-- The parsed value on success: the submitted object stripped to the schema
keys, in schema order, values untouched. -/
def parsedOf (pairs : List (String × JValue)) : List (String × JValue) :=
  schemaFields.filterMap (fun fld => (lookupP pairs fld.name).map (fun v => (fld.name, v)))

/-- `AgoraLeadSchema.parse(raw)`: success returns the stripped object,
failure carries the collected issue list (a thrown `ZodError`). -/
def zodParse (raw : JValue) : Except (List ZIssue) (List (String × JValue)) :=
  match raw with
  | .jobj pairs =>
      if (allIssues pairs).isEmpty then .ok (parsedOf pairs) else .error (allIssues pairs)
  | _ => .error [⟨"invalid_type", [], "Expected object"⟩]

/-- `ZodError.flatten()`: root-path messages under `formErrors`, field-path
messages grouped by leading path element under `fieldErrors`. -/
def flattenIssues (issues : List ZIssue) : JValue :=
  .jobj
    [("formErrors", .jarr ((issues.filter (fun i => i.path.isEmpty)).map (fun i => .jstr i.message))),
     ("fieldErrors",
      .jobj (((issues.filterMap (fun i => i.path.head?)).foldl
                (fun acc k => if acc.contains k then acc else acc ++ [k]) []).map
              (fun k =>
                (k, .jarr ((issues.filter (fun i => i.path.head? == some k)).map
                      (fun i => .jstr i.message))))))]

/-! ## JSON body parser (`JSON.parse` model, part_000 lines 142-148)

Modelled from the spec: the upstream body is parsed as best-effort JSON and
"wrapped as `{ raw: <text> }` rather than discarded" when parsing fails.
The external builtin `JSON.parse` is modelled by a fuelled recursive-descent
parser for the JSON fragment the relay observes: objects, arrays, strings
(with the common escapes; no `\uXXXX`), integer numbers, `true`, `false`,
`null`.  `none` models a thrown `SyntaxError`. -/

def pSkip (l : List Char) : List Char :=
  l.dropWhile (fun c => c = ' ' || c = '\n' || c = '\t' || c = '\r')

def strCons (c : Char) (p : String × List Char) : String × List Char :=
  (⟨c :: p.1.data⟩, p.2)

/-- Parse the remainder of a string literal (after the opening quote). -/
def parseStringLit : List Char → Option (String × List Char)
  | [] => none
  | '"' :: r => some ("", r)
  | '\\' :: '"' :: r => (parseStringLit r).map (strCons '"')
  | '\\' :: '\\' :: r => (parseStringLit r).map (strCons '\\')
  | '\\' :: '/' :: r => (parseStringLit r).map (strCons '/')
  | '\\' :: 'n' :: r => (parseStringLit r).map (strCons '\n')
  | '\\' :: 't' :: r => (parseStringLit r).map (strCons '\t')
  | '\\' :: 'r' :: r => (parseStringLit r).map (strCons '\r')
  | '\\' :: 'b' :: r => (parseStringLit r).map (strCons '\x08')
  | '\\' :: 'f' :: r => (parseStringLit r).map (strCons '\x0c')
  | '\\' :: _ => none
  | c :: r => (parseStringLit r).map (strCons c)

def digitsToNat (l : List Char) : Nat :=
  l.foldl (fun a c => a * 10 + (c.toNat - 48)) 0

/-- Parse an integer JSON number (a leading sign and digits, not continued by
a fraction or exponent — fractional numbers are outside this model). -/
def parseNum (l : List Char) : Option (Int × List Char) :=
  match l with
  | '-' :: r =>
      (match r.takeWhile Char.isDigit, r.dropWhile Char.isDigit with
       | [], _ => none
       | ds, rest =>
           match rest with
           | '.' :: _ => none
           | 'e' :: _ => none
           | 'E' :: _ => none
           | _ => some (-(digitsToNat ds : Int), rest))
  | _ =>
      (match l.takeWhile Char.isDigit, l.dropWhile Char.isDigit with
       | [], _ => none
       | ds, rest =>
           match rest with
           | '.' :: _ => none
           | 'e' :: _ => none
           | 'E' :: _ => none
           | _ => some ((digitsToNat ds : Int), rest))

mutual

def parseVal : Nat → List Char → Option (JValue × List Char)
  | 0, _ => none
  | fuel + 1, l =>
      match pSkip l with
      | 'n' :: 'u' :: 'l' :: 'l' :: r => some (.jnull, r)
      | 't' :: 'r' :: 'u' :: 'e' :: r => some (.jbool true, r)
      | 'f' :: 'a' :: 'l' :: 's' :: 'e' :: r => some (.jbool false, r)
      | '"' :: r => (parseStringLit r).map (fun p => (.jstr p.1, p.2))
      | '\x7b' :: r =>
          (match pSkip r with
           | '\x7d' :: r2 => some (.jobj [], r2)
           | _ => (parseMembers fuel r).map (fun p => (.jobj p.1, p.2)))
      | '[' :: r =>
          (match pSkip r with
           | ']' :: r2 => some (.jarr [], r2)
           | _ => (parseElems fuel r).map (fun p => (.jarr p.1, p.2)))
      | l2 => (parseNum l2).map (fun p => (.jnum p.1, p.2))

def parseMembers : Nat → List Char → Option (List (String × JValue) × List Char)
  | 0, _ => none
  | fuel + 1, l =>
      match pSkip l with
      | '"' :: r =>
          (match parseStringLit r with
           | some (k, r2) =>
               (match pSkip r2 with
                | ':' :: r3 =>
                    (match parseVal fuel r3 with
                     | some (v, r4) =>
                         (match pSkip r4 with
                          | ',' :: r5 => (parseMembers fuel r5).map (fun p => ((k, v) :: p.1, p.2))
                          | '\x7d' :: r5 => some ([(k, v)], r5)
                          | _ => none)
                     | none => none)
                | _ => none)
           | none => none)
      | _ => none

def parseElems : Nat → List Char → Option (List JValue × List Char)
  | 0, _ => none
  | fuel + 1, l =>
      match parseVal fuel l with
      | some (v, r) =>
          (match pSkip r with
           | ',' :: r2 => (parseElems fuel r2).map (fun p => (v :: p.1, p.2))
           | ']' :: r2 => some ([v], r2)
           | _ => none)
      | none => none

end

/-- `JSON.parse(text)`: `none` models a thrown `SyntaxError`. -/
def parseJson (s : String) : Option JValue :=
  match parseVal (s.length + 1) s.data with
  | some (v, r) => if (pSkip r).isEmpty then some v else none
  | none => none

/-- part_000 lines 142-148: `JSON.parse(text)` with the `{ raw: text }`
fallback on parse failure. -/
def parseBody (text : String) : JValue :=
  match parseJson text with
  | some v => v
  | none => .jobj [("raw", .jstr text)]

/-! ## part_000 relay logic (lines 114-188) -/

/-- A JSON response of the lead endpoint (`NextResponse.json(body, status)`). -/
structure ApiResponse where
  status : Nat
  body : JValue

/-- `upstream?.status === s` (strict string comparison). -/
def statusIs (u : JValue) (s : String) : Bool :=
  match jlookup u "status" with
  | some (.jstr t) => t = s
  | _ => false

/-- A key/value pair that survives `JSON.stringify`: present only when the
looked-up property is defined (an `undefined` property is dropped). -/
def optField (k : String) (u : JValue) : List (String × JValue) :=
  match jlookup u k with
  | some v => [(k, v)]
  | none => []

/-- `upstream?.message ?? "rejected"`: nullish coalescing. -/
def messageOrDefault (o : Option JValue) : JValue :=
  match o with
  | some .jnull => .jstr "rejected"
  | none => .jstr "rejected"
  | some v => v

/-- part_000 lines 150-176: normalize the upstream reply for the UI. -/
def normalizeUpstream (st : Nat) (u : JValue) : ApiResponse :=
  if st = 200 && statusIs u "ACCEPTED" then
    ⟨200, .jobj (("status", .jstr "accepted") :: (optField "redirectUrl" u ++ optField "price" u))⟩
  else if st = 200 && statusIs u "REJECTED" then
    ⟨200, .jobj [("status", .jstr "rejected"), ("message", messageOrDefault (jlookup u "message"))]⟩
  else
    ⟨st, .jobj [("status", .jstr "error"), ("upstreamStatus", .jnum (st : Int)), ("upstream", u)]⟩

/-- part_000 lines 142-176 given the upstream HTTP status and body text. -/
def relayFinish (reply : Nat × String) : ApiResponse :=
  normalizeUpstream reply.1 (parseBody reply.2)

/-- part_000 lines 117-122: copy `bankMonths` into an absent `subID3`
(JS assignment to an absent key appends it), then delete `bankMonths`. -/
def normalizePayload (p : List (String × JValue)) : List (String × JValue) :=
  (match lookupP p "bankMonths", lookupP p "subID3" with
   | some v, none => p ++ [("subID3", v)]
   | _, _ => p).filter (fun kv => kv.1 != "bankMonths")

/-- What the handler decides before any network activity: either answer
immediately (no outbound call is made), or forward this payload upstream. -/
inductive RelayStep where
  | respond : ApiResponse → RelayStep
  | forward : List (String × JValue) → RelayStep

/-- part_000 lines 114-122 and 177-184: parse the body against the schema;
a `ZodError` is answered as `422 validation_error` with the flattened issue
list and nothing is forwarded; otherwise the normalized payload goes
upstream. -/
def relayValidate (raw : JValue) : RelayStep :=
  match zodParse raw with
  | .error issues =>
      .respond ⟨422, .jobj [("status", .jstr "validation_error"),
                            ("errors", flattenIssues issues)]⟩
  | .ok parsed => .forward (normalizePayload parsed)

/-- part_000 lines 114-188: the whole validate-and-relay block.  `reqBody` is
`none` when `req.json()` itself throws (non-JSON request body: the catch-all
500), and the upstream call is abstracted as a function from the forwarded
payload to the upstream (HTTP status, body text). -/
def relayHandler (reqBody : Option JValue)
    (fetchUpstream : List (String × JValue) → Nat × String) : ApiResponse :=
  match reqBody with
  | none => ⟨500, .jobj [("status", .jstr "error"), ("message", .jstr "Unexpected server error")]⟩
  | some raw =>
      match relayValidate raw with
      | .respond r => r
      | .forward payload => relayFinish (fetchUpstream payload)

/-- part_000 lines 104-113: the unconditional early return (after the
artificial delay, which is real time and not modelled). -/
def earlyReturn : Option ApiResponse :=
  some ⟨200, .jobj [("status", .jstr "accepted"), ("redirectUrl", .jstr "https://google.com")]⟩

/-- part_000 lines 102-190: the `POST` handler.  The body is the early return
followed by the validate-and-relay block, which is therefore dead code. -/
def POSTpart000 (reqBody : Option JValue)
    (fetchUpstream : List (String × JValue) → Nat × String) : ApiResponse :=
  match earlyReturn with
  | some r => r
  | none => relayHandler reqBody fetchUpstream

/-! ## Theorems about part_000's `POST` and its relay logic -/

/-- C9.  In the captured variant part_000, the `POST` handler returns
200 `{status:"accepted", redirectUrl:"https://google.com"}` for every request
body and every upstream behaviour — it never reads, validates, or forwards
the submission (the result does not depend on `reqBody` or `fetchUpstream`),
because the unconditional early return shadows the validate-and-relay block,
which is dead code. -/
theorem part000_post_early_return_shadows_relay (b b2 : Option JValue)
    (fetch fetch2 : List (String × JValue) → Nat × String) :
    POSTpart000 b fetch
      = ⟨200, .jobj [("status", .jstr "accepted"), ("redirectUrl", .jstr "https://google.com")]⟩ ∧
    POSTpart000 b fetch = POSTpart000 b2 fetch2 :=
  ⟨rfl, rfl⟩

theorem statusIs_iff (u : JValue) (s : String) :
    statusIs u s = true ↔ jlookup u "status" = some (.jstr s) := by
  unfold statusIs
  cases h : jlookup u "status" with
  | none => simp
  | some v => cases v <;> simp

theorem normalizeUpstream_accepted (st : Nat) (u : JValue) (hst : st = 200)
    (h : jlookup u "status" = some (.jstr "ACCEPTED")) :
    normalizeUpstream st u
      = ⟨200, .jobj (("status", .jstr "accepted")
                     :: (optField "redirectUrl" u ++ optField "price" u))⟩ := by
  subst hst
  have hcond : (decide ((200 : Nat) = 200) && statusIs u "ACCEPTED") = true := by
    simp [statusIs_iff, h]
  unfold normalizeUpstream
  rw [if_pos hcond]

theorem normalizeUpstream_rejected (st : Nat) (u : JValue) (hst : st = 200)
    (h : jlookup u "status" = some (.jstr "REJECTED")) :
    normalizeUpstream st u
      = ⟨200, .jobj [("status", .jstr "rejected"),
                     ("message", messageOrDefault (jlookup u "message"))]⟩ := by
  subst hst
  have hfalse : statusIs u "ACCEPTED" = false := by
    rw [← Bool.not_eq_true, statusIs_iff, h]
    simp
  have hc2 : (decide ((200 : Nat) = 200) && statusIs u "REJECTED") = true := by
    simp [statusIs_iff, h]
  unfold normalizeUpstream
  rw [if_neg (by simp [hfalse]), if_pos hc2]

theorem normalizeUpstream_error (st : Nat) (u : JValue)
    (h1 : ¬ (st = 200 ∧ jlookup u "status" = some (.jstr "ACCEPTED")))
    (h2 : ¬ (st = 200 ∧ jlookup u "status" = some (.jstr "REJECTED"))) :
    normalizeUpstream st u
      = ⟨st, .jobj [("status", .jstr "error"), ("upstreamStatus", .jnum (st : Int)),
                    ("upstream", u)]⟩ := by
  have hc1 : (decide (st = 200) && statusIs u "ACCEPTED") = false := by
    by_cases hs : st = 200
    · subst hs
      rcases hb : statusIs u "ACCEPTED" with _ | _
      · simp
      · exact absurd ⟨rfl, (statusIs_iff u "ACCEPTED").mp hb⟩ h1
    · simp [hs]
  have hc2 : (decide (st = 200) && statusIs u "REJECTED") = false := by
    by_cases hs : st = 200
    · subst hs
      rcases hb : statusIs u "REJECTED" with _ | _
      · simp
      · exact absurd ⟨rfl, (statusIs_iff u "REJECTED").mp hb⟩ h2
    · simp [hs]
  unfold normalizeUpstream
  rw [if_neg (by simp [hc1]), if_neg (by simp [hc2])]

theorem lookupP_acc_redirectUrl (u : JValue) :
    lookupP (("status", JValue.jstr "accepted")
             :: (optField "redirectUrl" u ++ optField "price" u)) "redirectUrl"
      = jlookup u "redirectUrl" := by
  unfold optField
  cases h : jlookup u "redirectUrl" with
  | some v => simp [lookupP]
  | none =>
      cases h2 : jlookup u "price" with
      | some w => simp [lookupP]
      | none => simp [lookupP]

theorem lookupP_acc_price (u : JValue) :
    lookupP (("status", JValue.jstr "accepted")
             :: (optField "redirectUrl" u ++ optField "price" u)) "price"
      = jlookup u "price" := by
  unfold optField
  cases h : jlookup u "redirectUrl" with
  | some v =>
      cases h2 : jlookup u "price" with
      | some w => simp [lookupP]
      | none => simp [lookupP]
  | none =>
      cases h2 : jlookup u "price" with
      | some w => simp [lookupP]
      | none => simp [lookupP]

theorem lookupP_acc_status (u : JValue) :
    lookupP (("status", JValue.jstr "accepted")
             :: (optField "redirectUrl" u ++ optField "price" u)) "status"
      = some (.jstr "accepted") := by
  simp [lookupP]

theorem messageOrDefault_some (m : JValue) (h : m ≠ .jnull) :
    messageOrDefault (some m) = m := by
  cases m with
  | jnull => exact absurd rfl h
  | jbool b => rfl
  | jnum n => rfl
  | jstr s => rfl
  | jarr l => rfl
  | jobj l => rfl

/-- C4.  Response mapping of the lead submission endpoint: an upstream reply
`200` with body `status:"ACCEPTED"` yields `200 {status:"accepted"}` passing
through the upstream `redirectUrl` and `price`; an upstream reply `200` with
body `status:"REJECTED"` yields `200 {status:"rejected"}` with the upstream
`message`, defaulting to `"rejected"` when the message is absent. -/
theorem upstream_200_mapping (st : Nat) (text : String) :
    (st = 200 → jlookup (parseBody text) "status" = some (.jstr "ACCEPTED") →
      (relayFinish (st, text)).status = 200 ∧
      jlookup (relayFinish (st, text)).body "status" = some (.jstr "accepted") ∧
      jlookup (relayFinish (st, text)).body "redirectUrl"
        = jlookup (parseBody text) "redirectUrl" ∧
      jlookup (relayFinish (st, text)).body "price" = jlookup (parseBody text) "price") ∧
    (st = 200 → jlookup (parseBody text) "status" = some (.jstr "REJECTED") →
      (relayFinish (st, text)).status = 200 ∧
      jlookup (relayFinish (st, text)).body "status" = some (.jstr "rejected") ∧
      (∀ m, jlookup (parseBody text) "message" = some m → m ≠ .jnull →
        jlookup (relayFinish (st, text)).body "message" = some m) ∧
      (jlookup (parseBody text) "message" = none →
        jlookup (relayFinish (st, text)).body "message" = some (.jstr "rejected"))) := by
  constructor
  · intro hst hs
    have hn : relayFinish (st, text)
        = ⟨200, .jobj (("status", .jstr "accepted")
                       :: (optField "redirectUrl" (parseBody text)
                           ++ optField "price" (parseBody text)))⟩ :=
      normalizeUpstream_accepted st (parseBody text) hst hs
    rw [hn]
    exact ⟨rfl, lookupP_acc_status _, lookupP_acc_redirectUrl _, lookupP_acc_price _⟩
  · intro hst hs
    have hn : relayFinish (st, text)
        = ⟨200, .jobj [("status", .jstr "rejected"),
                       ("message", messageOrDefault (jlookup (parseBody text) "message"))]⟩ :=
      normalizeUpstream_rejected st (parseBody text) hst hs
    rw [hn]
    refine ⟨rfl, rfl, ?_, ?_⟩
    · intro m hm hmn
      show lookupP [("status", JValue.jstr "rejected"),
        ("message", messageOrDefault (jlookup (parseBody text) "message"))] "message"
        = some m
      rw [hm, messageOrDefault_some m hmn]
      rfl
    · intro hnone
      show lookupP [("status", JValue.jstr "rejected"),
        ("message", messageOrDefault (jlookup (parseBody text) "message"))] "message"
        = some (.jstr "rejected")
      rw [hnone]
      rfl

/-- Witness for C4 at the spec's own examples: an upstream
`200 {"status":"ACCEPTED","redirectUrl":"https://x","price":42}` passes
`redirectUrl` and `price` through, and a bare `200 {"status":"REJECTED"}`
defaults the message to `"rejected"`. -/
theorem upstream_200_mapping_witness :
    (relayFinish (200, "\x7b\"status\":\"ACCEPTED\",\"redirectUrl\":\"https://x\",\"price\":42\x7d")).status
      = 200 ∧
    jlookup (relayFinish (200,
        "\x7b\"status\":\"ACCEPTED\",\"redirectUrl\":\"https://x\",\"price\":42\x7d")).body
        "redirectUrl" = some (.jstr "https://x") ∧
    jlookup (relayFinish (200,
        "\x7b\"status\":\"ACCEPTED\",\"redirectUrl\":\"https://x\",\"price\":42\x7d")).body
        "price" = some (.jnum 42) ∧
    jlookup (relayFinish (200, "\x7b\"status\":\"REJECTED\"\x7d")).body "message"
      = some (.jstr "rejected") := by
  have ha := (upstream_200_mapping 200
    "\x7b\"status\":\"ACCEPTED\",\"redirectUrl\":\"https://x\",\"price\":42\x7d").1 rfl rfl
  have hr := (upstream_200_mapping 200 "\x7b\"status\":\"REJECTED\"\x7d").2 rfl rfl
  exact ⟨ha.1, ha.2.2.1.trans rfl, ha.2.2.2.trans rfl, hr.2.2.2 rfl⟩

/-- C7.  Any upstream reply that is not (200, body status `"ACCEPTED"`) and
not (200, body status `"REJECTED"`) is echoed as
`{status:"error", upstreamStatus, upstream}` with the upstream's HTTP status;
a body that fails JSON parsing is wrapped as `{ raw: <text> }` rather than
discarded. -/
theorem upstream_error_echo (st : Nat) (text : String) :
    (¬ (st = 200 ∧ jlookup (parseBody text) "status" = some (.jstr "ACCEPTED")) →
     ¬ (st = 200 ∧ jlookup (parseBody text) "status" = some (.jstr "REJECTED")) →
     relayFinish (st, text)
       = ⟨st, .jobj [("status", .jstr "error"), ("upstreamStatus", .jnum (st : Int)),
                     ("upstream", parseBody text)]⟩) ∧
    (parseJson text = none → parseBody text = .jobj [("raw", .jstr text)]) := by
  constructor
  · intro h1 h2
    exact normalizeUpstream_error st (parseBody text) h1 h2
  · intro h
    unfold parseBody
    rw [h]

/-- Witness for C7 at the spec's example: a 503 with non-JSON body `"oops"`
yields `503 {status:"error", upstreamStatus:503, upstream:{raw:"oops"}}`. -/
theorem upstream_error_echo_witness :
    parseBody "oops" = .jobj [("raw", .jstr "oops")] ∧
    relayFinish (503, "oops")
      = ⟨503, .jobj [("status", .jstr "error"), ("upstreamStatus", .jnum 503),
                     ("upstream", .jobj [("raw", .jstr "oops")])]⟩ := by
  have hw : parseBody "oops" = .jobj [("raw", .jstr "oops")] :=
    (upstream_error_echo 503 "oops").2 rfl
  have he := (upstream_error_echo 503 "oops").1
    (fun h => by omega) (fun h => by omega)
  rw [hw] at he
  exact ⟨hw, he⟩

/-! ## Validation-failure lemmas -/

set_option linter.unnecessarySeqFocus false in
theorem checkVal_nil_valid (spc : FieldSpec) (v : JValue) (h : (checkVal spc v).2 = []) :
    (checkVal spc v).1 = .valid := by
  cases spc <;> cases v <;> simp [checkVal] at h ⊢ <;> (try split at h) <;> simp_all <;>
    (try split at h) <;> simp_all

theorem fieldResult_abort_ne_nil (pairs : List (String × JValue)) (fld : SchemaField)
    (h : (fieldResult pairs fld).1.isAb = true) : (fieldResult pairs fld).2 ≠ [] := by
  intro hnil
  unfold fieldResult at h hnil
  cases hl : lookupP pairs fld.name with
  | none =>
      rw [hl] at h hnil
      by_cases ho : fld.opt
      · rw [if_pos ho] at h
        simp [ZStatus.isAb] at h
      · rw [if_neg ho] at hnil
        simp at hnil
  | some v =>
      rw [hl] at h hnil
      cases v with
      | jnull =>
          by_cases hn : fld.nullable
          · rw [if_pos hn] at h
            simp [ZStatus.isAb] at h
          · rw [if_neg hn] at hnil
            simp at hnil
      | jbool b =>
          simp only [List.map_eq_nil_iff] at hnil
          have := checkVal_nil_valid fld.spec (.jbool b) hnil
          rw [this] at h
          simp [ZStatus.isAb] at h
      | jnum n =>
          simp only [List.map_eq_nil_iff] at hnil
          have := checkVal_nil_valid fld.spec (.jnum n) hnil
          rw [this] at h
          simp [ZStatus.isAb] at h
      | jstr s =>
          simp only [List.map_eq_nil_iff] at hnil
          have := checkVal_nil_valid fld.spec (.jstr s) hnil
          rw [this] at h
          simp [ZStatus.isAb] at h
      | jarr l =>
          simp only [List.map_eq_nil_iff] at hnil
          have := checkVal_nil_valid fld.spec (.jarr l) hnil
          rw [this] at h
          simp [ZStatus.isAb] at h
      | jobj l =>
          simp only [List.map_eq_nil_iff] at hnil
          have := checkVal_nil_valid fld.spec (.jobj l) hnil
          rw [this] at h
          simp [ZStatus.isAb] at h

theorem baseIssues_ne_nil_of_field (pairs : List (String × JValue)) (fld : SchemaField)
    (hmem : fld ∈ schemaFields) (hne : (fieldResult pairs fld).2 ≠ []) :
    baseIssues pairs ≠ [] := by
  intro h
  obtain ⟨i, hi⟩ : ∃ i, i ∈ (fieldResult pairs fld).2 := by
    cases h2 : (fieldResult pairs fld).2 with
    | nil => exact absurd h2 hne
    | cons a t => exact ⟨a, by simp [h2]⟩
  have hmem2 : i ∈ schemaFields.flatMap (fun f2 => (fieldResult pairs f2).2) :=
    List.mem_flatMap.mpr ⟨fld, hmem, hi⟩
  rw [show schemaFields.flatMap (fun f2 => (fieldResult pairs f2).2) = baseIssues pairs from rfl,
    h] at hmem2
  exact absurd hmem2 (List.not_mem_nil i)

theorem baseIssues_ne_nil_of_aborts (pairs : List (String × JValue))
    (h : baseAborts pairs = true) : baseIssues pairs ≠ [] := by
  obtain ⟨fld, hmem, hab⟩ := List.any_eq_true.mp h
  exact baseIssues_ne_nil_of_field pairs fld hmem (fieldResult_abort_ne_nil pairs fld hab)

theorem allIssues_ne_nil_of_base (pairs : List (String × JValue))
    (h : baseIssues pairs ≠ []) : allIssues pairs ≠ [] := by
  intro hc
  exact h (List.append_eq_nil.mp hc).1

theorem zodParse_error_of_ne (pairs : List (String × JValue)) (h : allIssues pairs ≠ []) :
    zodParse (.jobj pairs) = .error (allIssues pairs) := by
  show (if (allIssues pairs).isEmpty = true then Except.ok (parsedOf pairs)
        else Except.error (allIssues pairs)) = Except.error (allIssues pairs)
  rw [if_neg (by simp [List.isEmpty_iff, h])]

theorem relayValidate_respond_of_error (pairs : List (String × JValue))
    (h : zodParse (.jobj pairs) = .error (allIssues pairs)) :
    relayValidate (.jobj pairs)
      = .respond ⟨422, .jobj [("status", .jstr "validation_error"),
                              ("errors", flattenIssues (allIssues pairs))]⟩ := by
  unfold relayValidate
  rw [h]

theorem relayHandler_of_respond (pairs : List (String × JValue)) (r : ApiResponse)
    (h : relayValidate (.jobj pairs) = .respond r)
    (fetchUpstream : List (String × JValue) → Nat × String) :
    relayHandler (some (.jobj pairs)) fetchUpstream = r := by
  show (match relayValidate (.jobj pairs) with
        | RelayStep.respond r2 => r2
        | RelayStep.forward payload => relayFinish (fetchUpstream payload)) = r
  rw [h]

theorem state_field_mem : (⟨"state", .fStrLen 2, false, false⟩ : SchemaField) ∈ schemaFields := by
  decide

/-- C8.  A submission whose `state` field is a string of length ≠ 2 is
rejected as `422 validation_error`, the handler responds without forwarding
anything (`relayValidate` answers immediately, never `forward`), and the
response is independent of the upstream — the outbound HTTP call is never
made for that request. -/
theorem invalid_state_rejected_before_forward (pairs : List (String × JValue)) (s : String)
    (hs : lookupP pairs "state" = some (.jstr s)) (hlen : s.length ≠ 2) :
    zodParse (.jobj pairs) = .error (allIssues pairs) ∧
    relayValidate (.jobj pairs)
      = .respond ⟨422, .jobj [("status", .jstr "validation_error"),
                              ("errors", flattenIssues (allIssues pairs))]⟩ ∧
    (∀ p, relayValidate (.jobj pairs) ≠ .forward p) ∧
    (∀ f1 f2 : List (String × JValue) → Nat × String,
      relayHandler (some (.jobj pairs)) f1
        = ⟨422, .jobj [("status", .jstr "validation_error"),
                       ("errors", flattenIssues (allIssues pairs))]⟩ ∧
      relayHandler (some (.jobj pairs)) f1 = relayHandler (some (.jobj pairs)) f2) := by
  have hcv : checkVal (.fStrLen 2) (.jstr s)
      = (.dirty, [("invalid_string_length", "String must contain exactly N character(s)")]) := by
    show (if s.length = 2 then ((ZStatus.valid, []) : ZStatus × List (String × String))
          else (.dirty, [("invalid_string_length", "String must contain exactly N character(s)")]))
        = (.dirty, [("invalid_string_length", "String must contain exactly N character(s)")])
    rw [if_neg hlen]
  have hfr : fieldResult pairs ⟨"state", .fStrLen 2, false, false⟩
      = (.dirty, [⟨"invalid_string_length", ["state"],
                   "String must contain exactly N character(s)"⟩]) := by
    unfold fieldResult
    rw [hs]
    show (match checkVal (.fStrLen 2) (.jstr s) with
          | (st, is) => (st, is.map (fun p : String × String => (⟨p.1, ["state"], p.2⟩ : ZIssue)))) = _
    rw [hcv]
    rfl
  have hbase : baseIssues pairs ≠ [] :=
    baseIssues_ne_nil_of_field pairs _ state_field_mem (by rw [hfr]; simp)
  have hz : zodParse (.jobj pairs) = .error (allIssues pairs) :=
    zodParse_error_of_ne pairs (allIssues_ne_nil_of_base pairs hbase)
  have hrv := relayValidate_respond_of_error pairs hz
  refine ⟨hz, hrv, ?_, ?_⟩
  · intro p hp
    rw [hrv] at hp
    exact RelayStep.noConfusion hp
  · intro f1 f2
    have h1 := relayHandler_of_respond pairs _ hrv f1
    have h2 := relayHandler_of_respond pairs _ hrv f2
    exact ⟨h1, h1.trans h2.symm⟩

/-- Witness for C8 at the spec's example `state = "California"`. -/
theorem invalid_state_rejected_before_forward_witness :
    relayValidate (.jobj [("state", .jstr "California")])
      = .respond ⟨422, .jobj [("status", .jstr "validation_error"),
                              ("errors", flattenIssues (allIssues [("state", .jstr "California")]))]⟩ :=
  (invalid_state_rejected_before_forward [("state", .jstr "California")] "California"
    rfl (by decide)).2.1

/-- C2 (amended).  For every submission in which both `subID3` and
`bankMonths` are absent, validation fails and the outcome is
`422 validation_error`; moreover, whenever no field of the base schema fails
with an aborting (type-level) error — so that zod actually executes the
`superRefine` refinement — the structured error list contains the issue
attributing the failure to `bankMonths`. -/
theorem missing_both_validation_error (pairs : List (String × JValue))
    (h3 : lookupP pairs "subID3" = none) (hb : lookupP pairs "bankMonths" = none) :
    zodParse (.jobj pairs) = .error (allIssues pairs) ∧
    (∀ fetchUpstream : List (String × JValue) → Nat × String,
      relayHandler (some (.jobj pairs)) fetchUpstream
        = ⟨422, .jobj [("status", .jstr "validation_error"),
                       ("errors", flattenIssues (allIssues pairs))]⟩) ∧
    (baseAborts pairs = false → customIssue ∈ allIssues pairs) := by
  have hne : allIssues pairs ≠ [] := by
    cases hab : baseAborts pairs with
    | true => exact allIssues_ne_nil_of_base pairs (baseIssues_ne_nil_of_aborts pairs hab)
    | false =>
        have hrefine : refineIssues pairs = [customIssue] := by
          unfold refineIssues
          rw [if_pos (by simp [hab, h3, hb])]
        intro hc
        rw [show allIssues pairs = baseIssues pairs ++ refineIssues pairs from rfl,
          hrefine] at hc
        exact absurd (List.append_eq_nil.mp hc).2 (by simp)
  have hz := zodParse_error_of_ne pairs hne
  have hrv := relayValidate_respond_of_error pairs hz
  refine ⟨hz, fun fetchUpstream => relayHandler_of_respond pairs _ hrv fetchUpstream, ?_⟩
  intro hab
  have hrefine : refineIssues pairs = [customIssue] := by
    unfold refineIssues
    rw [if_pos (by simp [hab, h3, hb])]
  rw [show allIssues pairs = baseIssues pairs ++ refineIssues pairs from rfl, hrefine]
  exact List.mem_append.mpr (Or.inr (by simp))

/-- Counterexample to C2 as stated: the empty submission has both `subID3`
and `bankMonths` absent and is rejected as a validation error, but zod skips
the `superRefine` refinement because the base parse aborts (every required
field is missing), so no issue in the structured error list has path
`["bankMonths"]` — the failure is not attributed to `bankMonths`. -/
theorem missing_both_attribution_counterexample :
    lookupP [] "subID3" = none ∧ lookupP [] "bankMonths" = none ∧
    zodParse (.jobj []) = .error (allIssues []) ∧
    allIssues [] ≠ [] ∧
    (allIssues []).all (fun i => i.path != ["bankMonths"]) = true := by
  refine ⟨rfl, rfl, rfl, by decide, by decide⟩

/-- A fully valid submission except that both `subID3` and `bankMonths` are
absent: every required field is present and well-formed. -/
def validLead : List (String × JValue) :=
  [("campaignID", .jnum 7),
   ("ipAddress", .jstr "203.0.113.7"),
   ("sourceURL", .jstr "https://example.com/form"),
   ("firstName", .jstr "Jane"),
   ("lastName", .jstr "Doe"),
   ("streetAddress", .jstr "1 Main St"),
   ("city", .jstr "Dallas"),
   ("state", .jstr "TX"),
   ("zipCode", .jstr "75001"),
   ("homePhone", .jstr "2145550100"),
   ("workPhone", .jstr "2145550101"),
   ("mobilePhone", .jstr "2145550102"),
   ("email", .jstr "jane@doe.com"),
   ("dateOfBirth", .jstr "1990-01-02"),
   ("ssn", .jstr "123456789"),
   ("ownRent", .jstr "rent"),
   ("yearsAtResidence", .jnum 3),
   ("monthsAtResidence", .jnum 4),
   ("incomeSource", .jstr "employment"),
   ("employer", .jstr "Acme"),
   ("yearsAtEmployer", .jnum 2),
   ("monthsAtEmployer", .jnum 1),
   ("monthlyIncome", .jnum 3000),
   ("loanAmount", .jnum 500),
   ("payMethod", .jstr "checking"),
   ("payPeriod", .jstr "biWeekly"),
   ("firstPayDate", .jstr "2025-01-03"),
   ("secondPayDate", .jstr "2025-01-17"),
   ("bankName", .jstr "First Bank"),
   ("bankAccountType", .jstr "checking"),
   ("bankRoutingNumber", .jstr "111000025"),
   ("bankAccountNumber", .jstr "12345678"),
   ("activeMilitary", .jstr "no"),
   ("minPrice", .jnum 0)]

/-- Witness for the amended C2: on `validLead` (both aliases absent, no other
error, so the refinement runs) validation fails and the error list contains
the `bankMonths` issue. -/
theorem missing_both_validation_error_witness :
    zodParse (.jobj validLead) = .error (allIssues validLead) ∧
    customIssue ∈ allIssues validLead := by
  have h := missing_both_validation_error validLead rfl rfl
  exact ⟨h.1, h.2.2 (by decide)⟩

/-! ## Normalization lemmas for the forwarded payload -/

theorem lookupP_stripped_not_mem (fields : List SchemaField) (pairs : List (String × JValue))
    (n : String) (h : n ∉ fields.map SchemaField.name) :
    lookupP (fields.filterMap
      (fun fld => (lookupP pairs fld.name).map (fun v => (fld.name, v)))) n = none := by
  induction fields with
  | nil => rfl
  | cons f rest ih =>
      simp only [List.map_cons, List.mem_cons, not_or] at h
      cases hl : lookupP pairs f.name with
      | none =>
          rw [List.filterMap_cons, hl]
          exact ih h.2
      | some v =>
          rw [List.filterMap_cons, hl]
          show (if f.name = n then some v else lookupP _ n) = none
          rw [if_neg (fun hc => h.1 hc.symm)]
          exact ih h.2

theorem lookupP_stripped_mem (fields : List SchemaField) (pairs : List (String × JValue))
    (n : String) (hnd : (fields.map SchemaField.name).Nodup)
    (hmem : n ∈ fields.map SchemaField.name) :
    lookupP (fields.filterMap
      (fun fld => (lookupP pairs fld.name).map (fun v => (fld.name, v)))) n
      = lookupP pairs n := by
  induction fields with
  | nil => simp at hmem
  | cons f rest ih =>
      simp only [List.map_cons, List.nodup_cons] at hnd
      rcases List.mem_cons.mp hmem with heq | hmem2
      · subst heq
        cases hl : lookupP pairs f.name with
        | none =>
            rw [List.filterMap_cons, hl]
            show lookupP (rest.filterMap
              (fun fld => (lookupP pairs fld.name).map (fun v => (fld.name, v)))) f.name = none
            exact lookupP_stripped_not_mem rest pairs f.name hnd.1
        | some v =>
            rw [List.filterMap_cons, hl]
            show (if f.name = f.name then some v
                  else lookupP (rest.filterMap
                    (fun fld => (lookupP pairs fld.name).map (fun v => (fld.name, v)))) f.name)
              = some v
            rw [if_pos rfl]
      · cases hl : lookupP pairs f.name with
        | none =>
            rw [List.filterMap_cons, hl]
            exact ih hnd.2 hmem2
        | some v =>
            rw [List.filterMap_cons, hl]
            have hne : ¬ (f.name = n) := fun hc => hnd.1 (hc ▸ hmem2)
            show (if f.name = n then some v
                  else lookupP (rest.filterMap
                    (fun fld => (lookupP pairs fld.name).map (fun v => (fld.name, v)))) n)
              = lookupP pairs n
            rw [if_neg hne]
            exact ih hnd.2 hmem2

theorem schema_names_nodup : (schemaFields.map SchemaField.name).Nodup := by decide

theorem parsedOf_subID3 (pairs : List (String × JValue)) :
    lookupP (parsedOf pairs) "subID3" = lookupP pairs "subID3" :=
  lookupP_stripped_mem schemaFields pairs "subID3" schema_names_nodup (by decide)

theorem parsedOf_bankMonths (pairs : List (String × JValue)) :
    lookupP (parsedOf pairs) "bankMonths" = lookupP pairs "bankMonths" :=
  lookupP_stripped_mem schemaFields pairs "bankMonths" schema_names_nodup (by decide)

theorem lookupP_filter_bankMonths_self (p : List (String × JValue)) :
    lookupP (p.filter (fun kv => kv.1 != "bankMonths")) "bankMonths" = none := by
  induction p with
  | nil => rfl
  | cons kv rest ih =>
      by_cases hk : kv.1 = "bankMonths"
      · rw [List.filter_cons, if_neg (by simp [hk])]
        exact ih
      · rw [List.filter_cons, if_pos (by simp [hk])]
        show (if kv.1 = "bankMonths" then some kv.2 else lookupP _ "bankMonths") = none
        rw [if_neg hk]
        exact ih

theorem lookupP_filter_bankMonths_other (p : List (String × JValue)) (n : String)
    (hn : ¬ (n = "bankMonths")) :
    lookupP (p.filter (fun kv => kv.1 != "bankMonths")) n = lookupP p n := by
  induction p with
  | nil => rfl
  | cons kv rest ih =>
      by_cases hk : kv.1 = "bankMonths"
      · rw [List.filter_cons, if_neg (by simp [hk])]
        show lookupP (rest.filter (fun kv => kv.1 != "bankMonths")) n
          = (if kv.1 = n then some kv.2 else lookupP rest n)
        rw [if_neg (fun hc => hn (hc.symm.trans hk))]
        exact ih
      · rw [List.filter_cons, if_pos (by simp [hk])]
        show (if kv.1 = n then some kv.2 else lookupP _ n)
          = (if kv.1 = n then some kv.2 else lookupP rest n)
        by_cases hkn : kv.1 = n
        · rw [if_pos hkn, if_pos hkn]
        · rw [if_neg hkn, if_neg hkn]
          exact ih

theorem lookupP_append_of_none (a b : List (String × JValue)) (n : String)
    (h : lookupP a n = none) : lookupP (a ++ b) n = lookupP b n := by
  induction a with
  | nil => rfl
  | cons kv rest ih =>
      show (if kv.1 = n then some kv.2 else lookupP (rest ++ b) n) = lookupP b n
      have hh : (if kv.1 = n then some kv.2 else lookupP rest n) = none := h
      by_cases hk : kv.1 = n
      · rw [if_pos hk] at hh
        exact absurd hh (by simp)
      · rw [if_neg hk] at hh
        rw [if_neg hk]
        exact ih hh

/-- C3.  Normalization of the forwarded payload: for every submission that
passes validation, the relay forwards the normalized payload; that payload
never contains a `bankMonths` key; if `bankMonths` was set and `subID3`
unset, the forwarded `subID3` equals the original `bankMonths` value; and if
`subID3` was set (in particular when both were set), the forwarded `subID3`
equals the original `subID3` — the alias does not overwrite it. -/
theorem normalized_payload_alias_mapping (pairs parsed : List (String × JValue))
    (h : zodParse (.jobj pairs) = .ok parsed) :
    relayValidate (.jobj pairs) = .forward (normalizePayload parsed) ∧
    lookupP (normalizePayload parsed) "bankMonths" = none ∧
    (∀ v, lookupP pairs "bankMonths" = some v → lookupP pairs "subID3" = none →
      lookupP (normalizePayload parsed) "subID3" = some v) ∧
    (∀ v3, lookupP pairs "subID3" = some v3 →
      lookupP (normalizePayload parsed) "subID3" = some v3) := by
  have hp : parsed = parsedOf pairs := by
    have h2 : zodParse (.jobj pairs)
        = (if (allIssues pairs).isEmpty = true then Except.ok (parsedOf pairs)
           else Except.error (allIssues pairs)) := rfl
    rw [h2] at h
    by_cases hc : (allIssues pairs).isEmpty = true
    · rw [if_pos hc] at h
      exact (Except.ok.inj h).symm
    · rw [if_neg hc] at h
      exact absurd h (by simp)
  have hrv : relayValidate (.jobj pairs) = .forward (normalizePayload parsed) := by
    unfold relayValidate
    rw [h]
  refine ⟨hrv, ?_, ?_, ?_⟩
  · show lookupP ((match lookupP parsed "bankMonths", lookupP parsed "subID3" with
      | some v, none => parsed ++ [("subID3", v)]
      | _, _ => parsed).filter (fun kv => kv.1 != "bankMonths")) "bankMonths" = none
    exact lookupP_filter_bankMonths_self _
  · intro v hbm hs3
    have hb2 : lookupP parsed "bankMonths" = some v := by
      rw [hp, parsedOf_bankMonths]
      exact hbm
    have hs2 : lookupP parsed "subID3" = none := by
      rw [hp, parsedOf_subID3]
      exact hs3
    have hm : normalizePayload parsed
        = (parsed ++ [("subID3", v)]).filter (fun kv => kv.1 != "bankMonths") := by
      unfold normalizePayload
      rw [hb2, hs2]
    rw [hm, lookupP_filter_bankMonths_other _ _ (by decide),
      lookupP_append_of_none _ _ _ hs2]
    rfl
  · intro v3 hs3v
    have hs2 : lookupP parsed "subID3" = some v3 := by
      rw [hp, parsedOf_subID3]
      exact hs3v
    have hm : normalizePayload parsed = parsed.filter (fun kv => kv.1 != "bankMonths") := by
      unfold normalizePayload
      rw [hs2]
      cases hbb : lookupP parsed "bankMonths" <;> rfl
    rw [hm, lookupP_filter_bankMonths_other _ _ (by decide)]
    exact hs2

/-- `validLead` with the UI convenience key `bankMonths` set (and `subID3`
absent): a fully valid submission exercising the alias normalization. -/
def validLeadBM : List (String × JValue) := validLead ++ [("bankMonths", .jstr "6")]

/-- Witness for C3 on `validLeadBM`: the submission validates, the forwarded
payload drops `bankMonths` and carries `subID3 = "6"`. -/
theorem normalized_payload_alias_mapping_witness :
    lookupP (normalizePayload (parsedOf validLeadBM)) "bankMonths" = none ∧
    lookupP (normalizePayload (parsedOf validLeadBM)) "subID3" = some (.jstr "6") := by
  have h := normalized_payload_alias_mapping validLeadBM (parsedOf validLeadBM) (by rfl)
  exact ⟨h.2.1, h.2.2.1 (.jstr "6") (by rfl) (by rfl)⟩
